import Mathlib

/-!
Verification of the LSA artifact validation engine of
`alter-agro-yara-logica` against its specification.

The Python validators operate on a parsed JSON artifact.  We embed them in
two layers:

* a typed artifact model (`Premise`, `Inference`, `Contradiction`,
  `Conclusion`, `Artifact`) for the structural validator
  (`validate_lsa_structure.py`), the confidence validator
  (`validate_confidence.py`) and the coverage calculator
  (`calculate_contradiction_coverage.py`), which access only the fields
  modelled here (`dict.get` with a default is modelled by a field with that
  default, a possibly-absent key by an `Option` field);
* a raw `Json` value model for the schema validator
  (`validate_lsa_schema.py`), which must see unknown fields.

Python floats are modelled as exact rationals (`ℚ`); the numeric claims under
verification are stated at the level of the arithmetic formulas, whose
constants (0.7, 0.8, 1.1, ...) are exactly representable in the model.
Error messages are modelled as structured error values, one constructor per
distinct `errors.append(...)` site / jsonschema error kind, carrying the data
interpolated into the corresponding message string.
-/

namespace LSA

/- The Batteries rational operations are `@[irreducible]`, which blocks the
evaluation of concrete artifacts by `decide`/`rfl`; they are ordinary
structurally recursive definitions, so we restore their reducibility for
this development. -/
attribute [local semireducible] Rat.mul Rat.inv Rat.add Rat.sub Rat.ofScientific

/-- The `contradiction_check` sub-object.  The validators read it with
`cc.get("performed")` / `cc.get("exempt", False)` (Python truthiness, default
false) and `cc.get("exempt_reason", "unspecified")`; an absent
`contradiction_check` key behaves like `{}`, i.e. like this structure's
default value. -/
structure ContradictionCheck where
  performed : Bool := false
  exempt : Bool := false
  exempt_reason : Option String := none
deriving DecidableEq

/-- A premise, as read by the non-schema validators: `id` plus an optional
`confidence` (`"confidence" in premise` ↔ the field is `some`). -/
structure Premise where
  id : String
  confidence : Option ℚ := none
deriving DecidableEq

/-- An inference: `id`, `supports` (`inference.get("supports", [])`),
optional `confidence`, and its `contradiction_check`. -/
structure Inference where
  id : String
  supports : List String := []
  confidence : Option ℚ := none
  contradiction_check : ContradictionCheck := {}
deriving DecidableEq

/-- A contradiction: `id` and `targets` (`contradiction.get("targets", [])`). -/
structure Contradiction where
  id : String
  targets : List String := []
deriving DecidableEq

/-- A conclusion: `id`, `supports`, `contested_by`, optional `confidence`,
and its `contradiction_check`. -/
structure Conclusion where
  id : String
  supports : List String := []
  contested_by : List String := []
  confidence : Option ℚ := none
  contradiction_check : ContradictionCheck := {}
deriving DecidableEq

/-- A parsed LSA artifact, as consumed by the non-schema validators
(each uses `artifact.get(key, [])`, so an absent list behaves as `[]`;
the `audit` block is not read by any of them). -/
structure Artifact where
  premises : List Premise := []
  inferences : List Inference := []
  contradictions : List Contradiction := []
  conclusions : List Conclusion := []
deriving DecidableEq

/-! ## Confidence propagation validator (`validate_confidence.py`)

The Python `confidences` dict only ever has single keys assigned
(`confidences[id] = conf`, possibly reassigned) and is read with
`support_id in confidences` / `confidences[support_id]`.  We model it as an
association list consed at the front, looked up first-match, so the most
recent assignment wins, exactly as for the dict. -/

abbrev ConfMap := List (String × ℚ)

/-- Dict lookup: `confidences[k]` when present (`k in confidences` ↔ `isSome`). -/
def lookupConf (m : ConfMap) (k : String) : Option ℚ :=
  (m.find? (fun e => e.1 == k)).map (·.2)

/-- One constructor per `errors.append(...)` site of
`validate_confidence_propagation`, carrying the interpolated data. -/
inductive ConfError where
  | premiseMissing (pid : String)
  | premiseRange (pid : String) (c : ℚ)
  | infMissing (iid : String)
  | infRange (iid : String) (c : ℚ)
  | infNoSupports (iid : String)
  | infUnknownSupport (iid ref : String)
  | infBound (iid : String) (c maxAllowed minSupport : ℚ)
  | concMissing (cid : String)
  | concRange (cid : String) (c : ℚ)
  | concContested (cid : String) (numContested : Nat) (c : ℚ)
deriving DecidableEq

/-- Whether an error is the inference confidence-bound error (the
`exceeds maximum allowed` message). -/
def ConfError.isInfBound : ConfError → Bool
  | .infBound _ _ _ _ => true
  | _ => false

/-- Errors contributed by one premise (step 1 of the validator):
missing confidence, or a range error when it lies outside `[0, 1]`.
Note that the range check does not prevent the premise from being stored
in the confidence map (see `processPremises`). -/
def premiseErrors (p : Premise) : List ConfError :=
  match p.confidence with
  | none => [.premiseMissing p.id]
  | some c => if 0 ≤ c ∧ c ≤ 1 then [] else [.premiseRange p.id c]

/-- Step 1 of `validate_confidence_propagation`: walk the premises in order,
collecting errors and seeding the confidence map.  A premise with a
`confidence` key is stored even when the value is out of range (the Python
`confidences[premise["id"]] = conf` sits outside the range check). -/
def processPremises (m : ConfMap) : List Premise → List ConfError × ConfMap
  | [] => ([], m)
  | p :: ps =>
      (premiseErrors p ++
        (processPremises (match p.confidence with
          | none => m
          | some c => (p.id, c) :: m) ps).1,
       (processPremises (match p.confidence with
          | none => m
          | some c => (p.id, c) :: m) ps).2)

/-- `min(support_confs)` of a nonempty list, as Python's `min`. -/
def minQ (x : ℚ) (xs : List ℚ) : ℚ := xs.foldl min x

/-- The support confidences that resolve in the map, in support order
(`support_confs` in the source). -/
def resolvedConfs (m : ConfMap) (supports : List String) : List ℚ :=
  supports.filterMap (lookupConf m)

/-- `min(support_confs)` when some support resolved, else `none`
(the Python `if support_confs:` guard). -/
def minResolved (m : ConfMap) (supports : List String) : Option ℚ :=
  match resolvedConfs m supports with
  | [] => none
  | c :: cs => some (minQ c cs)

/-- Errors contributed by one inference, given the confidence map at its
processing point (step 2 of the validator): missing confidence, range error,
empty supports (each of which `continue`s), otherwise the unknown-support
errors followed by the bound check against `min_support * 1.1`. -/
def inferenceErrors (m : ConfMap) (inf : Inference) : List ConfError :=
  match inf.confidence with
  | none => [.infMissing inf.id]
  | some c =>
    if ¬(0 ≤ c ∧ c ≤ 1) then [.infRange inf.id c]
    else if inf.supports = [] then [.infNoSupports inf.id]
    else
      (inf.supports.filterMap (fun r =>
        if (lookupConf m r).isSome then none else some (.infUnknownSupport inf.id r))) ++
      (match minResolved m inf.supports with
        | none => []
        | some ms =>
            if c > ms * (11/10) then [.infBound inf.id c (ms * (11/10)) ms] else [])

/-- The confidence-map update performed for one inference:
`confidences[inference["id"]] = inf_conf` is reached only when the
confidence is present, in range, and the supports list is nonempty
(otherwise the loop `continue`d before it). -/
def inferenceMapUpdate (m : ConfMap) (inf : Inference) : ConfMap :=
  match inf.confidence with
  | none => m
  | some c =>
    if ¬(0 ≤ c ∧ c ≤ 1) then m
    else if inf.supports = [] then m
    else (inf.id, c) :: m

/-- Step 2 of `validate_confidence_propagation`: walk the inferences in
declaration order, threading the confidence map. -/
def processInferences (m : ConfMap) : List Inference → List ConfError × ConfMap
  | [] => ([], m)
  | inf :: rest =>
      (inferenceErrors m inf ++ (processInferences (inferenceMapUpdate m inf) rest).1,
       (processInferences (inferenceMapUpdate m inf) rest).2)

/-- Errors contributed by one conclusion (step 3 of the validator):
missing confidence, range error, or the contestation error when
`contested_by` is nonempty and the confidence exceeds 0.8.  The conclusion
loop never reads the confidence map, so its contribution is a function of
the conclusion alone (it does store `confidences[conclusion["id"]]`, which
nothing ever reads afterwards). -/
def conclusionErrors (conc : Conclusion) : List ConfError :=
  match conc.confidence with
  | none => [.concMissing conc.id]
  | some c =>
    if ¬(0 ≤ c ∧ c ≤ 1) then [.concRange conc.id c]
    else if conc.contested_by ≠ [] ∧ c > 4/5 then
      [.concContested conc.id conc.contested_by.length c]
    else []

/-- `validate_confidence_propagation(lsa_artifact)`: returns
`(len(errors) == 0, errors)` with the errors of the three passes in order. -/
def validateConfidencePropagation (a : Artifact) : Bool × List ConfError :=
  let e1m := processPremises [] a.premises
  let e2 := (processInferences e1m.2 a.inferences).1
  let e3 := a.conclusions.flatMap conclusionErrors
  let errs := e1m.1 ++ e2 ++ e3
  (errs.isEmpty, errs)

/-- The confidence map seeded from the premises (state after step 1). -/
def premiseMap (a : Artifact) : ConfMap := (processPremises [] a.premises).2

/-- The confidence map in force when the inference following the prefix
`pre` of `a.inferences` is processed. -/
def mapAfter (a : Artifact) (pre : List Inference) : ConfMap :=
  (processInferences (premiseMap a) pre).2

/-! ## Structural integrity validator (`validate_lsa_structure.py`)

`LSAValidator` holds the artifact and two mutable lists `errors` and
`warnings`; `validate_all` runs the four checks in order and returns
`(len(errors) == 0, errors, warnings)`.  We flatten the class into
functions returning the error/warning contributions of each check and
concatenate them in execution order. -/

/-- One constructor per `self.errors.append(...)` site of the structural
validator, carrying the interpolated ids. -/
inductive StructError where
  | circular (node : String)
  | infUnknownRef (infId ref : String)
  | concUnknownRef (concId ref : String)
  | contestedByUnknown (concId ref : String)
  | targetUnknown (contraId target : String)
deriving DecidableEq

/-- One constructor per `self.warnings.append(...)` site.  The orphan
warning message interpolates the orphan id set (sorted, truncated to 10 for
display); we carry the set itself. -/
inductive StructWarning where
  | orphaned (ids : Finset String)
  | untargeted (contraId : String)
deriving DecidableEq

/-- Python dict assignment `graph[k] = v`: replaces the value in place if the
key exists (keeping its position), else appends the new binding. -/
def dictInsert (m : List (String × List String)) (k : String) (v : List String) :
    List (String × List String) :=
  if m.any (fun e => e.1 == k) then
    m.map (fun e => if e.1 == k then (k, v) else e)
  else m ++ [(k, v)]

/-- `graph.get(node, [])`. -/
def graphNeighbors (g : List (String × List String)) (node : String) : List String :=
  ((g.find? (fun e => e.1 == node)).map (·.2)).getD []

/-- The recursive `has_cycle(node, visited, rec_stack)` DFS.  The Python
`visited` set is shared across calls, so it is threaded through and
returned; `rec_stack` is restored to its entry state whenever a call
returns `False` (each such call removes its own node), so it can be passed
by value.  `fuel` bounds the recursion depth; every nested call is on a
node not yet in `visited` and immediately inserts it, so the depth never
exceeds the total number of ids occurring in the graph, and
`checkCircularDependencies` supplies more fuel than that. -/
def hasCycle (g : List (String × List String)) :
    Nat → String → List String → List String → Bool × List String
  | 0, _, visited, _ => (false, visited)
  | fuel + 1, node, visited, recStack =>
      let visited := node :: visited
      let recStack := node :: recStack
      (graphNeighbors g node).foldl
        (fun (acc : Bool × List String) nb =>
          if acc.1 then acc
          else if nb ∈ acc.2 then
            if nb ∈ recStack then (true, acc.2) else acc
          else hasCycle g fuel nb acc.2 recStack)
        (false, visited)

/-- `check_circular_dependencies`: build the inference-supports graph, then
for each key not yet visited run the DFS from it, reporting one `circular`
error naming that start node whenever the DFS finds a cycle. -/
def checkCircularDependencies (a : Artifact) : List StructError :=
  let g := a.inferences.foldl (fun acc i => dictInsert acc i.id i.supports) []
  let fuel := g.length + g.foldl (fun n e => n + e.2.length) 0 + 1
  (g.foldl
    (fun (acc : List StructError × List String) e =>
      if e.1 ∈ acc.2 then acc
      else
        let r := hasCycle g fuel e.1 acc.2 []
        if r.1 then (acc.1 ++ [.circular e.1], r.2) else (acc.1, r.2))
    ([], [])).1

/-- The `valid_ids` set of `check_dangling_references` and
`check_contradiction_targets`: premise, inference and conclusion ids
(contradiction ids are NOT included). -/
def validIds (a : Artifact) : Finset String :=
  (a.premises.map (·.id)).toFinset ∪ (a.inferences.map (·.id)).toFinset ∪
    (a.conclusions.map (·.id)).toFinset

/-- The contradiction id set used for `contested_by` resolution. -/
def contradictionIds (a : Artifact) : Finset String :=
  (a.contradictions.map (·.id)).toFinset

/-- `check_dangling_references`: inference supports, then per conclusion its
supports followed by its `contested_by` entries (the latter resolved against
contradiction ids only). -/
def checkDanglingReferences (a : Artifact) : List StructError :=
  (a.inferences.flatMap (fun i =>
    i.supports.filterMap (fun ref =>
      if ref ∈ validIds a then none else some (.infUnknownRef i.id ref)))) ++
  (a.conclusions.flatMap (fun c =>
    (c.supports.filterMap (fun ref =>
      if ref ∈ validIds a then none else some (.concUnknownRef c.id ref))) ++
    (c.contested_by.filterMap (fun ref =>
      if ref ∈ contradictionIds a then none else some (.contestedByUnknown c.id ref)))))

/-- `check_orphaned_elements`: premises/inferences never referenced by any
`supports`/`targets` (conclusions exempt), reported as a single warning when
the set is nonempty. -/
def checkOrphanedElements (a : Artifact) : List StructWarning :=
  let referenced :=
    (a.inferences.flatMap (·.supports)).toFinset ∪
      (a.conclusions.flatMap (·.supports)).toFinset ∪
      (a.contradictions.flatMap (·.targets)).toFinset
  let allIds := (a.premises.map (·.id)).toFinset ∪ (a.inferences.map (·.id)).toFinset
  let conclusionIds := (a.conclusions.map (·.id)).toFinset
  let orphaned := (allIds \ referenced) \ conclusionIds
  if orphaned = ∅ then [] else [.orphaned orphaned]

/-- The error contributions of `check_contradiction_targets`: each target
must be in `valid_ids`. -/
def checkContradictionTargetErrors (a : Artifact) : List StructError :=
  a.contradictions.flatMap (fun c =>
    c.targets.filterMap (fun t =>
      if t ∈ validIds a then none else some (.targetUnknown c.id t)))

/-- The warning contributions of `check_contradiction_targets`: a
contradiction with nonempty `targets` contested by no conclusion. -/
def checkContradictionTargetWarnings (a : Artifact) : List StructWarning :=
  a.contradictions.filterMap (fun c =>
    if (a.conclusions.filter (fun conc => c.id ∈ conc.contested_by)) = [] ∧
        c.targets ≠ [] then
      some (.untargeted c.id)
    else none)

/-- The result triple of `validate_all`. -/
structure StructResult where
  valid : Bool
  errors : List StructError
  warnings : List StructWarning
deriving DecidableEq

/-- `validate_all`: run the four checks in order; the errors list receives,
in order, the circular, dangling and contradiction-target errors, the
warnings list the orphan and untargeted-contradiction warnings; validity is
`len(self.errors) == 0`. -/
def validateAll (a : Artifact) : StructResult :=
  let errs := checkCircularDependencies a ++ checkDanglingReferences a ++
    checkContradictionTargetErrors a
  let warns := checkOrphanedElements a ++ checkContradictionTargetWarnings a
  ⟨errs.isEmpty, errs, warns⟩

/-- The exit code of `main` on a readable artifact: `sys.exit(0)` when
`is_valid` else `sys.exit(1)` (warnings are printed but never consulted). -/
def structExitCode (a : Artifact) : Nat :=
  if (validateAll a).valid then 0 else 1

/-! ## Sorting helper

Python's `sorted` is modelled by a simple insertion sort parameterised by a
boolean `le`.  No theorem in this file depends on the relative order of
elements the comparison ties, so stability is not modelled. -/

/-- Insert `x` into a sorted list, after every element `y` with `le y x`. -/
def insertLe (le : α → α → Bool) (x : α) : List α → List α
  | [] => [x]
  | y :: ys => if le y x then y :: insertLe le x ys else x :: y :: ys

/-- Insertion sort by the boolean order `le`. -/
def sortLe (le : α → α → Bool) : List α → List α
  | [] => []
  | x :: xs => insertLe le x (sortLe le xs)

/-- Strict code-point order on characters. -/
def charLt (c d : Char) : Bool := c.toNat < d.toNat

/-- Lexicographic code-point order on character lists. -/
def charsLt : List Char → List Char → Bool
  | [], [] => false
  | [], _ :: _ => true
  | _ :: _, [] => false
  | c :: cs, d :: ds =>
      if charLt c d then true
      else if charLt d c then false
      else charsLt cs ds

/-- Python string `<` (code-point lexicographic). -/
def strLtB (s t : String) : Bool := charsLt s.data t.data

/-- Python string order as a boolean `≤`. -/
def strLe (s t : String) : Bool := !(strLtB t s)

/-! ## Contradiction coverage calculator
(`calculate_contradiction_coverage.py`) -/

/-- One entry of the `exempt` list: the claim id and its
`exempt_reason` (default `"unspecified"`). -/
structure Exemption where
  id : String
  reason : String
deriving DecidableEq

def exemptionOf (id : String) (cc : ContradictionCheck) : Exemption :=
  ⟨id, cc.exempt_reason.getD "unspecified"⟩

/-- The `checkable` list: ids of inferences then conclusions whose
`contradiction_check.exempt` is not truthy, in declaration order. -/
def checkableIds (a : Artifact) : List String :=
  ((a.inferences.filter (fun i => !i.contradiction_check.exempt)).map (·.id)) ++
    ((a.conclusions.filter (fun c => !c.contradiction_check.exempt)).map (·.id))

/-- The `exempt` list built alongside `checkable`. -/
def exemptList (a : Artifact) : List Exemption :=
  ((a.inferences.filter (·.contradiction_check.exempt)).map
    (fun i => exemptionOf i.id i.contradiction_check)) ++
    ((a.conclusions.filter (·.contradiction_check.exempt)).map
      (fun c => exemptionOf c.id c.contradiction_check))

/-- The `checked` set: ids targeted by at least one contradiction, together
with inference/conclusion ids whose own `contradiction_check.performed` is
truthy.  (A Python `set`, modelled as a `Finset`.) -/
def checkedSet (a : Artifact) : Finset String :=
  (a.contradictions.flatMap (·.targets)).toFinset ∪
    ((a.inferences.filter (·.contradiction_check.performed)).map (·.id)).toFinset ∪
    ((a.conclusions.filter (·.contradiction_check.performed)).map (·.id)).toFinset

/-- The details dict returned next to the coverage ratio. -/
structure CoverageDetails where
  total_claims : Nat
  exempt_claims : Nat
  checkable_claims : Nat
  checked_claims : Nat
  unchecked_claims : Nat
  coverage : ℚ
  unchecked_ids : List String
  exemptions : List Exemption
deriving DecidableEq

/-- `calculate_contradiction_coverage(lsa_artifact)`: the early return for
`total_checkable == 0` yields coverage 1.0; otherwise the coverage is
`len(checked ∩ set(checkable)) / total_checkable` where `total_checkable`
is the length of the `checkable` list. -/
def calculateContradictionCoverage (a : Artifact) : ℚ × CoverageDetails :=
  let checkable := checkableIds a
  let exempt := exemptList a
  let totalCheckable := checkable.length
  if totalCheckable = 0 then
    (1, { total_claims := a.inferences.length + a.conclusions.length,
          exempt_claims := exempt.length, checkable_claims := 0,
          checked_claims := 0, unchecked_claims := 0, coverage := 1,
          unchecked_ids := [], exemptions := exempt })
  else
    let checked := checkedSet a
    let checkedCheckable := checked ∩ checkable.toFinset
    let coverage : ℚ := (checkedCheckable.card : ℚ) / (totalCheckable : ℚ)
    (coverage,
     { total_claims := a.inferences.length + a.conclusions.length,
       exempt_claims := exempt.length, checkable_claims := totalCheckable,
       checked_claims := checkedCheckable.card,
       unchecked_claims := totalCheckable - checkedCheckable.card,
       coverage := coverage,
       unchecked_ids := sortLe strLe
         ((checkable.filter (fun x => decide (x ∉ checked))).dedup),
       exemptions := exempt })

/-- Specification-side `checkable` from the claim's words: the id set of the
inferences and conclusions whose `contradiction_check.exempt` is not true. -/
def checkableSpecSet (a : Artifact) : Finset String :=
  ((a.inferences.filter (fun i => !i.contradiction_check.exempt)).map (·.id)).toFinset ∪
    ((a.conclusions.filter (fun c => !c.contradiction_check.exempt)).map (·.id)).toFinset

/-- Specification-side coverage from the claim's words:
`|checked ∩ checkable| / |checkable|` over the id sets, 1 when `checkable`
is empty.  (`checked` is described by the claim exactly as the code builds
`checkedSet`.) -/
def coverageSpec (a : Artifact) : ℚ :=
  if checkableSpecSet a = ∅ then 1
  else ((checkedSet a ∩ checkableSpecSet a).card : ℚ) / ((checkableSpecSet a).card : ℚ)

/-! ## Schema validator (`validate_lsa_schema.py`)

`validate_lsa_schema` feeds the parsed document to
`jsonschema.Draft7Validator(LSA_SCHEMA).iter_errors`, sorts the errors by
their `path` (a deque compared lexicographically) and formats each one.  We
model the JSON document, transliterate `LSA_SCHEMA` into per-field checkers
following Draft-7 semantics as implemented by the `jsonschema` package:

* each schema keyword yields its errors independently, in the keyword order
  of the schema literal (`type`, `required`, `properties`,
  `additionalProperties`; within a field `type` then
  `pattern`/`minLength`/`enum`/`minimum`/`maximum`, arrays `type`, `items`,
  `minItems`);
* `pattern`/`minLength` apply only to strings, `minimum`/`maximum` only to
  numbers, `items`/`minItems` only to arrays — other instances pass those
  keywords vacuously (their `type` keyword reports instead);
* an `additionalProperties: false` violation is a single error at the
  object's path listing the sorted unexpected keys;
* `format` annotations (`email`, `date-time`) are NOT validated — the code
  constructs `Draft7Validator` without a format checker;
* JSON numbers are modelled as exact rationals; the `integer` type test is
  modelled as having denominator 1.

Errors are structured `(path, rule)` pairs standing for the formatted
message strings (one `rule` constructor per `error.validator` branch of the
formatting loop, `belowMinimum`/`aboveMaximum` falling into its generic
`else` branch). -/

/-- A parsed JSON value. -/
inductive Json where
  | null
  | bool (b : Bool)
  | num (q : ℚ)
  | str (s : String)
  | arr (elems : List Json)
  | obj (fields : List (String × Json))

/-- One component of a jsonschema error path: an object key or an array
index. -/
inductive PathElem where
  | key (s : String)
  | idx (n : Nat)
deriving DecidableEq

/-- The rule that fired, carrying the data interpolated into the message. -/
inductive SchemaRule where
  | requiredMissing (field : String)
  | patternMismatch
  | wrongType (expected : String)
  | notInEnum (allowed : List String)
  | tooFewItems (n : Nat)
  | tooShort (n : Nat)
  | additionalProps (extras : List String)
  | belowMinimum (min : ℚ)
  | aboveMaximum (max : ℚ)
deriving DecidableEq

/-- A structured schema error: the instance path and the rule violated. -/
structure SchemaError where
  path : List PathElem
  rule : SchemaRule
deriving DecidableEq

/-- `^premise-[0-9]+$` and friends: `pfx` followed by one or more ASCII
digits.  (String predicates are computed over the character list `s.data`.) -/
def isIdWith (pfx : String) (s : String) : Bool :=
  pfx.data.isPrefixOf s.data &&
    (let rest := s.data.drop pfx.data.length
     !rest.isEmpty && rest.all (·.isDigit))

/-- A lowercase hex digit (`[a-f0-9]`). -/
def isHexLower (c : Char) : Bool := c.isDigit || ('a' ≤ c && c ≤ 'f')

/-- `^([a-f0-9]{64}|private)$`. -/
def isSha256OrPrivate (s : String) : Bool :=
  s == "private" || (s.data.length == 64 && s.data.all isHexLower)

/-- `^[a-f0-9]{64}$`. -/
def isSha256Hex (s : String) : Bool :=
  s.data.length == 64 && s.data.all isHexLower

/-- `^[0-9]+-[0-9]+$`: a nonempty digit run, a dash, then a nonempty digit
run to the end. -/
def isByteRange (s : String) : Bool :=
  let d1 := s.data.takeWhile (·.isDigit)
  match s.data.dropWhile (·.isDigit) with
  | '-' :: rest => !d1.isEmpty && !rest.isEmpty && rest.all (·.isDigit)
  | _ => false

/-- `^LSA::` (jsonschema patterns use `re.search`, so this only anchors the
start). -/
def isLsaMethodology (s : String) : Bool := "LSA::".data.isPrefixOf s.data

/-- `{"type": "string"}`. -/
def checkStr (p : List PathElem) : Json → List SchemaError
  | .str _ => []
  | _ => [⟨p, .wrongType "string"⟩]

/-- `{"type": "string", "pattern": ...}`. -/
def checkStrPattern (ok : String → Bool) (p : List PathElem) : Json → List SchemaError
  | .str s => if ok s then [] else [⟨p, .patternMismatch⟩]
  | _ => [⟨p, .wrongType "string"⟩]

/-- `{"type": "string", "minLength": n}`. -/
def checkStrMinLen (n : Nat) (p : List PathElem) : Json → List SchemaError
  | .str s => if s.length < n then [⟨p, .tooShort n⟩] else []
  | _ => [⟨p, .wrongType "string"⟩]

/-- `{"type": "string", "enum": allowed}`: the `enum` keyword applies to any
instance, so a non-string fails both `type` and `enum`. -/
def checkStrEnum (allowed : List String) (p : List PathElem) : Json → List SchemaError
  | .str s => if s ∈ allowed then [] else [⟨p, .notInEnum allowed⟩]
  | _ => [⟨p, .wrongType "string"⟩, ⟨p, .notInEnum allowed⟩]

/-- `{"type": "boolean"}`. -/
def checkBool (p : List PathElem) : Json → List SchemaError
  | .bool _ => []
  | _ => [⟨p, .wrongType "boolean"⟩]

/-- `{"type": "number", "minimum": 0, "maximum": 1}`. -/
def checkNum01 (p : List PathElem) : Json → List SchemaError
  | .num q =>
      (if q < 0 then [⟨p, .belowMinimum 0⟩] else []) ++
        (if 1 < q then [⟨p, .aboveMaximum 1⟩] else [])
  | _ => [⟨p, .wrongType "number"⟩]

/-- `{"type": "integer", "minimum": 0}` (`minimum` applies to any number). -/
def checkNatMin0 (p : List PathElem) : Json → List SchemaError
  | .num q =>
      (if q.den == 1 then [] else [⟨p, .wrongType "integer"⟩]) ++
        (if q < 0 then [⟨p, .belowMinimum 0⟩] else [])
  | _ => [⟨p, .wrongType "integer"⟩]

/-- The `items` keyword over an array: check each element at its index. -/
def checkItemsFrom (chk : List PathElem → Json → List SchemaError)
    (p : List PathElem) (i : Nat) : List Json → List SchemaError
  | [] => []
  | x :: xs => chk (p ++ [.idx i]) x ++ checkItemsFrom chk p (i + 1) xs

/-- `{"type": "array", "items": {"type": "string"}, "minItems": n?}`. -/
def checkStrArr (minItems : Option Nat) (p : List PathElem) : Json → List SchemaError
  | .arr xs =>
      checkItemsFrom checkStr p 0 xs ++
        (match minItems with
          | some n => if xs.length < n then [⟨p, .tooFewItems n⟩] else []
          | none => [])
  | _ => [⟨p, .wrongType "array"⟩]

/-- Look up an object key (objects produced by `json.load` have unique
keys). -/
def lookupField (fs : List (String × Json)) (k : String) : Option Json :=
  ((fs.find? (fun e => e.1 == k)).map (·.2))

/-- The `required` keyword: one error per missing required key, in the
schema's order. -/
def requiredErrs (p : List PathElem) (req : List String)
    (fs : List (String × Json)) : List SchemaError :=
  req.filterMap (fun r =>
    if (lookupField fs r).isSome then none else some ⟨p, .requiredMissing r⟩)

/-- The `properties` keyword: check each declared property that is present,
in the schema's order. -/
def propsErrs (p : List PathElem)
    (props : List (String × (List PathElem → Json → List SchemaError)))
    (fs : List (String × Json)) : List SchemaError :=
  props.flatMap (fun pr =>
    match lookupField fs pr.1 with
    | some v => pr.2 (p ++ [.key pr.1]) v
    | none => [])

/-- The instance keys not declared under `properties`. -/
def extraKeys (props : List (String × (List PathElem → Json → List SchemaError)))
    (fs : List (String × Json)) : List String :=
  (fs.filter (fun kv => !props.any (fun pr => pr.1 == kv.1))).map (·.1)

/-- `additionalProperties: false`: a single error at the object's path
listing the sorted unexpected keys (jsonschema reports
`sorted(set(extras))`). -/
def additionalErrs (p : List PathElem)
    (props : List (String × (List PathElem → Json → List SchemaError)))
    (fs : List (String × Json)) : List SchemaError :=
  match extraKeys props fs with
  | [] => []
  | ks => [⟨p, .additionalProps (sortLe strLe ks.dedup)⟩]

/-- An object schema: `type`, `required`, `properties`, and optionally
`additionalProperties: false`, in that keyword order. -/
def checkObjectSchema (p : List PathElem) (req : List String)
    (props : List (String × (List PathElem → Json → List SchemaError)))
    (addlForbidden : Bool) : Json → List SchemaError
  | .obj fs =>
      requiredErrs p req fs ++ propsErrs p props fs ++
        (if addlForbidden then additionalErrs p props fs else [])
  | _ => [⟨p, .wrongType "object"⟩]

/-- The `properties` of a premise's `contradiction_check` subschema. -/
def ccPremiseProps : List (String × (List PathElem → Json → List SchemaError)) :=
  [("performed", checkBool), ("exempt", checkBool), ("exempt_reason", checkStr)]

/-- The `contradiction_check` subschema of a premise: three optional typed
fields and — crucially — no `additionalProperties` keyword, so unknown
fields inside it are permitted. -/
def checkCCPremise (p : List PathElem) (v : Json) : List SchemaError :=
  checkObjectSchema p [] ccPremiseProps false v

/-- The `properties` of an inference's `contradiction_check` subschema. -/
def ccInferenceProps : List (String × (List PathElem → Json → List SchemaError)) :=
  [("performed", checkBool), ("timestamp", checkStr),
   ("search_queries", checkStrArr none), ("sources_searched", checkNatMin0),
   ("contradictions_found", checkNatMin0), ("exempt", checkBool),
   ("exempt_reason", checkStr)]

/-- The richer `contradiction_check` subschema of an inference (again no
`additionalProperties` keyword). -/
def checkCCInference (p : List PathElem) (v : Json) : List SchemaError :=
  checkObjectSchema p [] ccInferenceProps false v

/-- The `properties` of a conclusion's `contradiction_check` subschema. -/
def ccConclusionProps : List (String × (List PathElem → Json → List SchemaError)) :=
  [("performed", checkBool), ("timestamp", checkStr),
   ("search_queries", checkStrArr none), ("sources_searched", checkNatMin0),
   ("contradictions_found", checkNatMin0), ("methodology", checkStr),
   ("exempt", checkBool), ("exempt_reason", checkStr)]

/-- The `contradiction_check` subschema of a conclusion (adds
`methodology`; no `additionalProperties` keyword). -/
def checkCCConclusion (p : List PathElem) (v : Json) : List SchemaError :=
  checkObjectSchema p [] ccConclusionProps false v

/-- The `required` list of the premise item schema. -/
def premiseReq : List String := ["id", "statement", "source_sha256", "byte_range"]

/-- The `properties` of the premise item schema. -/
def premiseProps : List (String × (List PathElem → Json → List SchemaError)) :=
  [("id", checkStrPattern (isIdWith "premise-")),
   ("statement", checkStrMinLen 10),
   ("source_sha256", checkStrPattern isSha256OrPrivate),
   ("byte_range", checkStrPattern isByteRange),
   ("confidence", checkNum01),
   ("source_type", checkStr),
   ("contradiction_check", checkCCPremise)]

/-- The premise item schema (`additionalProperties: false`). -/
def checkPremiseItem (p : List PathElem) (v : Json) : List SchemaError :=
  checkObjectSchema p premiseReq premiseProps true v

/-- The `required` list of the inference item schema. -/
def inferenceReq : List String := ["id", "supports", "methodology", "statement"]

/-- The `properties` of the inference item schema (`supports` has
`minItems: 1`). -/
def inferenceProps : List (String × (List PathElem → Json → List SchemaError)) :=
  [("id", checkStrPattern (isIdWith "inference-")),
   ("supports", checkStrArr (some 1)),
   ("methodology", checkStrPattern isLsaMethodology),
   ("confidence", checkNum01),
   ("statement", checkStrMinLen 10),
   ("contradiction_check", checkCCInference)]

/-- The inference item schema (`additionalProperties: false`). -/
def checkInferenceItem (p : List PathElem) (v : Json) : List SchemaError :=
  checkObjectSchema p inferenceReq inferenceProps true v

/-- The `required` list of the contradiction item schema. -/
def contradictionReq : List String := ["id", "targets", "statement", "label"]

/-- The `properties` of the contradiction item schema. -/
def contradictionProps : List (String × (List PathElem → Json → List SchemaError)) :=
  [("id", checkStrPattern (isIdWith "contradiction-")),
   ("targets", checkStrArr (some 1)),
   ("statement", checkStrMinLen 10),
   ("label", checkStrEnum ["FACT(CONTESTED)"]),
   ("source_sha256", checkStrPattern isSha256OrPrivate),
   ("byte_range", checkStrPattern isByteRange),
   ("confidence", checkNum01)]

/-- The contradiction item schema (`additionalProperties: false`). -/
def checkContradictionItem (p : List PathElem) (v : Json) : List SchemaError :=
  checkObjectSchema p contradictionReq contradictionProps true v

/-- The `required` list of the conclusion item schema. -/
def conclusionReq : List String :=
  ["id", "supports", "contested_by", "statement", "decision_state"]

/-- The `properties` of the conclusion item schema.  Note `supports`
carries `minItems: 1` in `LSA_SCHEMA`, even though conclusions are
documented as allowed an empty supports list. -/
def conclusionProps : List (String × (List PathElem → Json → List SchemaError)) :=
  [("id", checkStrPattern (isIdWith "conclusion-")),
   ("supports", checkStrArr (some 1)),
   ("contested_by", checkStrArr none),
   ("statement", checkStrMinLen 10),
   ("decision_state", checkStrEnum ["approved", "pending", "rejected"]),
   ("confidence", checkNum01),
   ("contradiction_check", checkCCConclusion)]

/-- The conclusion item schema (`additionalProperties: false`). -/
def checkConclusionItem (p : List PathElem) (v : Json) : List SchemaError :=
  checkObjectSchema p conclusionReq conclusionProps true v

/-- The `required` list of the audit schema. -/
def auditReq : List String := ["author", "timestamp", "hash", "signing_key"]

/-- The `properties` of the audit schema (`email`/`date-time` formats are
annotations only). -/
def auditProps : List (String × (List PathElem → Json → List SchemaError)) :=
  [("author", checkStr), ("timestamp", checkStr),
   ("hash", checkStrPattern isSha256Hex), ("signing_key", checkStr)]

/-- The audit schema (`additionalProperties: false`). -/
def checkAudit (p : List PathElem) (v : Json) : List SchemaError :=
  checkObjectSchema p auditReq auditProps true v

/-- An array of entity objects. -/
def checkArrayOf (itemChk : List PathElem → Json → List SchemaError)
    (p : List PathElem) : Json → List SchemaError
  | .arr xs => checkItemsFrom itemChk p 0 xs
  | _ => [⟨p, .wrongType "array"⟩]

/-- The `required` list of the top-level schema. -/
def topReq : List String :=
  ["premises", "inferences", "contradictions", "conclusions", "audit"]

/-- The `properties` of the top-level schema. -/
def topProps : List (String × (List PathElem → Json → List SchemaError)) :=
  [("premises", checkArrayOf checkPremiseItem),
   ("inferences", checkArrayOf checkInferenceItem),
   ("contradictions", checkArrayOf checkContradictionItem),
   ("conclusions", checkArrayOf checkConclusionItem),
   ("audit", checkAudit)]

/-- `Draft7Validator(LSA_SCHEMA).iter_errors(doc)`: the top-level object
schema with its five required entity collections and
`additionalProperties: false`. -/
def iterErrors (doc : Json) : List SchemaError :=
  checkObjectSchema [] topReq topProps true doc

/-- Strict comparison of path components; an index sorts before a key
(arbitrary: with `LSA_SCHEMA` two comparable paths never mix an index and a
key at the same position). -/
def pathEltLt : PathElem → PathElem → Bool
  | .idx m, .idx n => m < n
  | .key s, .key t => strLtB s t
  | .idx _, .key _ => true
  | .key _, .idx _ => false

/-- Lexicographic comparison of error paths (Python compares the `deque`s
elementwise, shorter prefix first). -/
def pathLt : List PathElem → List PathElem → Bool
  | [], [] => false
  | [], _ :: _ => true
  | _ :: _, [] => false
  | a :: as, b :: bs =>
      if pathEltLt a b then true
      else if pathEltLt b a then false
      else pathLt as bs

/-- `validate_lsa_schema(lsa_artifact)`: collect the schema errors, sort
them by instance path, and return `(len(errors) == 0, errors)`. -/
def validateLsaSchema (doc : Json) : Bool × List SchemaError :=
  let es := sortLe (fun e₁ e₂ => !pathLt e₂.path e₁.path) (iterErrors doc)
  (es.isEmpty, es)

/-! ## Concrete artifacts used by the witnesses and counterexamples -/

/-- An inference of confidence 0.80 supported by `premise-1`. -/
def infC1reject : Inference :=
  { id := "inference-1", supports := ["premise-1"], confidence := some (4/5) }

/-- An inference of confidence 0.75 supported by `premise-1`. -/
def infC1accept : Inference :=
  { id := "inference-1", supports := ["premise-1"], confidence := some (3/4) }

/-- An inference of out-of-range confidence 1.5 supported by `premise-1`. -/
def infC1outOfRange : Inference :=
  { id := "inference-1", supports := ["premise-1"], confidence := some (3/2) }

/-- Premise of confidence 0.70 supporting an inference of confidence 0.80
(the rejected example of the specification). -/
def artC1reject : Artifact :=
  { premises := [{ id := "premise-1", confidence := some (7/10) }],
    inferences := [infC1reject] }

/-- Premise of confidence 0.70 supporting an inference of confidence 0.75
(the accepted example of the specification). -/
def artC1accept : Artifact :=
  { premises := [{ id := "premise-1", confidence := some (7/10) }],
    inferences := [infC1accept] }

/-- Premise of confidence 0.70 supporting an inference whose confidence 1.5
is out of range yet far above the 0.77 propagation ceiling. -/
def artC1outOfRange : Artifact :=
  { premises := [{ id := "premise-1", confidence := some (7/10) }],
    inferences := [infC1outOfRange] }

/-- A two-inference support cycle `inference-1 → inference-2 → inference-1`. -/
def artC2cycle : Artifact :=
  { inferences := [{ id := "inference-1", supports := ["inference-2"],
                     confidence := some (1/2) },
                   { id := "inference-2", supports := ["inference-1"],
                     confidence := some (1/2) }] }

/-- Three checkable claims, two checked (one by a targeting contradiction,
one by its own performed check). -/
def artC3cov : Artifact :=
  { inferences := [{ id := "inference-1", supports := ["premise-1"],
                     confidence := some 1,
                     contradiction_check := { performed := true } },
                   { id := "inference-2", supports := ["premise-1"] }],
    contradictions := [{ id := "contradiction-1", targets := ["conclusion-1"] }],
    conclusions := [{ id := "conclusion-1" }] }

/-- A contested conclusion of confidence 0.85. -/
def concC4reject : Conclusion :=
  { id := "conclusion-1", contested_by := ["contradiction-1"],
    confidence := some (17/20) }

/-- A contested conclusion of confidence 0.79. -/
def concC4accept : Conclusion :=
  { id := "conclusion-1", contested_by := ["contradiction-1"],
    confidence := some (79/100) }

/-- A contested conclusion of confidence 0.85 (the rejected example). -/
def artC4reject : Artifact :=
  { contradictions := [{ id := "contradiction-1", targets := ["conclusion-1"] }],
    conclusions := [concC4reject] }

/-- A contested conclusion of confidence 0.79 (the accepted example). -/
def artC4accept : Artifact :=
  { contradictions := [{ id := "contradiction-1", targets := ["conclusion-1"] }],
    conclusions := [concC4accept] }

/-- An inference whose sole `supports` entry names an existing conclusion. -/
def artC6conclusionSupport : Artifact :=
  { premises := [{ id := "premise-1" }],
    inferences := [{ id := "inference-1", supports := ["conclusion-1"] }],
    conclusions := [{ id := "conclusion-1", supports := ["premise-1"] }] }

/-- An inference whose sole `supports` entry names an existing
contradiction. -/
def artC6contradictionSupport : Artifact :=
  { inferences := [{ id := "inference-1", supports := ["contradiction-1"] }],
    contradictions := [{ id := "contradiction-1", targets := ["inference-1"] }] }

/-- An artifact producing an orphan warning (`premise-2`) and an
untargeted-contradiction warning, but no errors. -/
def artC8warnings : Artifact :=
  { premises := [{ id := "premise-1" }, { id := "premise-2" }],
    contradictions := [{ id := "contradiction-1", targets := ["premise-1"] }] }

/-- An inference whose second support names an inference declared later. -/
def infC9first : Inference :=
  { id := "inference-1", supports := ["premise-1", "inference-2"],
    confidence := some (7/10) }

/-- The inference declared after `infC9first` that it forward-references. -/
def infC9second : Inference :=
  { id := "inference-2", supports := ["premise-1"], confidence := some (7/10) }

/-- An artifact in which `inference-1` forward-references `inference-2`. -/
def artC9forward : Artifact :=
  { premises := [{ id := "premise-1", confidence := some (7/10) }],
    inferences := [infC9first, infC9second] }

/-- A premise with the out-of-range confidence -0.5. -/
def premC10 : Premise := { id := "premise-1", confidence := some (-(1/2)) }

/-- An inference of confidence 0.5 supported by the out-of-range premise. -/
def infC10 : Inference :=
  { id := "inference-1", supports := ["premise-1"], confidence := some (1/2) }

/-- A premise with the out-of-range confidence -0.5 feeding an inference of
confidence 0.5. -/
def artC10outOfRange : Artifact :=
  { premises := [premC10], inferences := [infC10] }

/-- A conformant audit block. -/
def auditJson : Json :=
  .obj [("author", .str "author@example.com"),
        ("timestamp", .str "2025-01-01T00:00:00Z"),
        ("hash", .str (String.mk (List.replicate 64 'a'))),
        ("signing_key", .str "KEY-1")]

/-- A schema-conformant document whose only irregularity is the unknown
field `surprise` inside the premise's `contradiction_check`. -/
def docC5ccExtra : Json :=
  .obj [("premises", .arr [.obj [
          ("id", .str "premise-1"),
          ("statement", .str "A sufficiently long statement."),
          ("source_sha256", .str "private"),
          ("byte_range", .str "0-10"),
          ("contradiction_check", .obj [("performed", .bool true),
                                        ("surprise", .bool true)])]]),
        ("inferences", .arr []),
        ("contradictions", .arr []),
        ("conclusions", .arr []),
        ("audit", auditJson)]

/-- Top-level fields of a document unknown-field-free except for the
top-level key `bogus`. -/
def fieldsC5topExtra : List (String × Json) :=
  [("premises", .arr []),
   ("inferences", .arr []),
   ("contradictions", .arr []),
   ("conclusions", .arr []),
   ("audit", auditJson),
   ("bogus", .null)]

/-- A document unknown-field-free except for the top-level key `bogus`. -/
def docC5topExtra : Json := .obj fieldsC5topExtra

/-- A premise object carrying the unknown field `extra`. -/
def fieldsC5premise : List (String × Json) :=
  [("id", .str "premise-1"),
   ("statement", .str "A sufficiently long statement."),
   ("source_sha256", .str "private"),
   ("byte_range", .str "0-10"),
   ("extra", .bool true)]

/-- Top-level fields of a document whose premise carries the unknown field
`extra`. -/
def fieldsC5premiseExtra : List (String × Json) :=
  [("premises", .arr [.obj fieldsC5premise]),
   ("inferences", .arr []),
   ("contradictions", .arr []),
   ("conclusions", .arr []),
   ("audit", auditJson)]

/-- A document whose premise object carries the unknown field `extra`. -/
def docC5premiseExtra : Json := .obj fieldsC5premiseExtra

/-- An otherwise schema-conformant document whose conclusion has an empty
`supports` list. -/
def docC7emptySupports : Json :=
  .obj [("premises", .arr []),
        ("inferences", .arr []),
        ("contradictions", .arr []),
        ("conclusions", .arr [.obj [
          ("id", .str "conclusion-1"),
          ("supports", .arr []),
          ("contested_by", .arr []),
          ("statement", .str "A conclusion with no supports."),
          ("decision_state", .str "approved")]]),
        ("audit", auditJson)]

/-! ## Lemmas about the confidence validator -/

theorem lookupConf_cons_self (m : ConfMap) (k : String) (v : ℚ) :
    lookupConf ((k, v) :: m) k = some v := by
  simp [lookupConf, List.find?_cons]

theorem lookupConf_cons_ne (m : ConfMap) {k k' : String} (v : ℚ) (h : k' ≠ k) :
    lookupConf ((k', v) :: m) k = lookupConf m k := by
  have hb : (k' == k) = false := beq_eq_false_iff_ne.mpr h
  simp [lookupConf, List.find?_cons, hb]

theorem processPremises_errors (ps : List Premise) :
    ∀ m, (processPremises m ps).1 = ps.flatMap premiseErrors := by
  induction ps with
  | nil => intro m; rfl
  | cons p rest ih => intro m; simp [processPremises, ih]

theorem processInferences_append (l₁ l₂ : List Inference) :
    ∀ m, processInferences m (l₁ ++ l₂) =
      ((processInferences m l₁).1 ++
        (processInferences (processInferences m l₁).2 l₂).1,
       (processInferences (processInferences m l₁).2 l₂).2) := by
  induction l₁ with
  | nil => intro m; simp [processInferences]
  | cons i rest ih => intro m; simp [processInferences, ih]

theorem validateConfidence_errors_eq (a : Artifact) :
    (validateConfidencePropagation a).2 =
      (processPremises [] a.premises).1 ++
        (processInferences (premiseMap a) a.inferences).1 ++
        a.conclusions.flatMap conclusionErrors := rfl

/-- Any error contributed by a premise appears in the validator's output. -/
theorem mem_confErrors_of_premise {a : Artifact} {p : Premise} {e : ConfError}
    (hp : p ∈ a.premises) (he : e ∈ premiseErrors p) :
    e ∈ (validateConfidencePropagation a).2 := by
  rw [validateConfidence_errors_eq]
  refine List.mem_append.mpr (Or.inl (List.mem_append.mpr (Or.inl ?_)))
  rw [processPremises_errors]
  exact List.mem_flatMap.mpr ⟨p, hp, he⟩

/-- Any error contributed by an inference, evaluated at the confidence map
in force at its position, appears in the validator's output. -/
theorem mem_confErrors_of_inference {a : Artifact} {pre post : List Inference}
    {inf : Inference} {e : ConfError} (hsplit : a.inferences = pre ++ inf :: post)
    (he : e ∈ inferenceErrors (mapAfter a pre) inf) :
    e ∈ (validateConfidencePropagation a).2 := by
  rw [validateConfidence_errors_eq]
  refine List.mem_append.mpr (Or.inl (List.mem_append.mpr (Or.inr ?_)))
  rw [hsplit, processInferences_append]
  refine List.mem_append.mpr (Or.inr ?_)
  simpa [processInferences, mapAfter] using List.mem_append.mpr (Or.inl he)

/-- Any error contributed by a conclusion appears in the validator's
output. -/
theorem mem_confErrors_of_conclusion {a : Artifact} {conc : Conclusion}
    {e : ConfError} (hc : conc ∈ a.conclusions) (he : e ∈ conclusionErrors conc) :
    e ∈ (validateConfidencePropagation a).2 := by
  rw [validateConfidence_errors_eq]
  exact List.mem_append.mpr (Or.inr (List.mem_flatMap.mpr ⟨conc, hc, he⟩))

theorem exists_minResolved (m : ConfMap) {supports : List String}
    (hne : supports ≠ [])
    (hres : ∀ r ∈ supports, (lookupConf m r).isSome) :
    ∃ ms, minResolved m supports = some ms := by
  cases supports with
  | nil => exact absurd rfl hne
  | cons s ss =>
    obtain ⟨q, hq⟩ := Option.isSome_iff_exists.mp (hres s (by simp))
    simp only [minResolved, resolvedConfs, List.filterMap_cons, hq]
    exact ⟨_, rfl⟩

/-- When the confidence is present and in range and every support resolves,
the inference contributes exactly the bound error or nothing. -/
theorem inferenceErrors_resolved_eq {m : ConfMap} {inf : Inference} {c ms : ℚ}
    (hc : inf.confidence = some c) (h0 : 0 ≤ c) (h1 : c ≤ 1)
    (hres : ∀ r ∈ inf.supports, (lookupConf m r).isSome)
    (hne : inf.supports ≠ [])
    (hms : minResolved m inf.supports = some ms) :
    inferenceErrors m inf =
      if c > ms * (11/10) then [.infBound inf.id c (ms * (11/10)) ms] else [] := by
  simp only [inferenceErrors, hc]
  rw [if_neg (not_not_intro ⟨h0, h1⟩), if_neg hne]
  have hu : (inf.supports.filterMap fun r =>
      if (lookupConf m r).isSome then none
      else some (ConfError.infUnknownSupport inf.id r)) = [] :=
    List.filterMap_eq_nil_iff.mpr fun r hr => by rw [if_pos (hres r hr)]
  rw [hu, hms, List.nil_append]

/-- The inference contributes a confidence-bound error iff its confidence
exceeds `min(resolved supports) * 1.1`, provided its confidence is present,
in range, and every support resolves. -/
theorem infBound_mem_iff {m : ConfMap} {inf : Inference} {c : ℚ}
    (hc : inf.confidence = some c) (h0 : 0 ≤ c) (h1 : c ≤ 1)
    (hres : ∀ r ∈ inf.supports, (lookupConf m r).isSome) :
    (∃ b ms, ConfError.infBound inf.id c b ms ∈ inferenceErrors m inf) ↔
      ∃ ms, minResolved m inf.supports = some ms ∧ c > ms * (11/10) := by
  by_cases hne : inf.supports = []
  · have he : inferenceErrors m inf = [.infNoSupports inf.id] := by
      simp only [inferenceErrors, hc]
      rw [if_neg (not_not_intro ⟨h0, h1⟩), if_pos hne]
    have hm : minResolved m inf.supports = none := by rw [hne]; rfl
    rw [he, hm]
    simp
  · obtain ⟨ms, hms⟩ := exists_minResolved m hne hres
    rw [inferenceErrors_resolved_eq hc h0 h1 hres hne hms, hms]
    constructor
    · rintro ⟨b, ms', hmem⟩
      by_cases hgt : c > ms * (11/10)
      · exact ⟨ms, rfl, hgt⟩
      · rw [if_neg hgt] at hmem; cases hmem
    · rintro ⟨ms', hms', hgt⟩
      obtain rfl : ms = ms' := by injection hms'
      exact ⟨ms * (11/10), ms, by rw [if_pos hgt]; exact List.mem_singleton.mpr rfl⟩

/-- The contestation error fires iff `contested_by` is nonempty and the
confidence exceeds 0.8, provided the confidence is present and in range. -/
theorem concContested_mem_iff {conc : Conclusion} {c : ℚ}
    (hc : conc.confidence = some c) (h0 : 0 ≤ c) (h1 : c ≤ 1) :
    (ConfError.concContested conc.id conc.contested_by.length c ∈
        conclusionErrors conc) ↔
      (conc.contested_by ≠ [] ∧ c > 4/5) := by
  simp only [conclusionErrors, hc]
  rw [if_neg (not_not_intro ⟨h0, h1⟩)]
  by_cases hcond : conc.contested_by ≠ [] ∧ c > 4/5
  · rw [if_pos hcond]; simp [hcond]
  · rw [if_neg hcond]; simp [hcond]

theorem lookupConf_processPremises_of_ne {k : String} (ps : List Premise) :
    ∀ m, (∀ p ∈ ps, p.id ≠ k) →
      lookupConf (processPremises m ps).2 k = lookupConf m k := by
  induction ps with
  | nil => intro m _; rfl
  | cons p rest ih =>
    intro m hne
    have hp : p.id ≠ k := hne p (by simp)
    have hrest : ∀ q ∈ rest, q.id ≠ k := fun q hq => hne q (by simp [hq])
    simp only [processPremises]
    cases hpc : p.confidence with
    | none => exact ih m hrest
    | some c => exact (ih _ hrest).trans (lookupConf_cons_ne m c hp)

theorem lookupConf_inferenceMapUpdate_ne {m : ConfMap} {inf : Inference}
    {k : String} (h : inf.id ≠ k) :
    lookupConf (inferenceMapUpdate m inf) k = lookupConf m k := by
  unfold inferenceMapUpdate
  cases inf.confidence with
  | none => rfl
  | some c =>
    show lookupConf
      (if ¬(0 ≤ c ∧ c ≤ 1) then m
       else if inf.supports = [] then m else (inf.id, c) :: m) k = lookupConf m k
    by_cases hr : ¬(0 ≤ c ∧ c ≤ 1)
    · rw [if_pos hr]
    · rw [if_neg hr]
      by_cases hs : inf.supports = []
      · rw [if_pos hs]
      · rw [if_neg hs]; exact lookupConf_cons_ne m c h

theorem lookupConf_processInferences_of_ne {k : String} (infs : List Inference) :
    ∀ m, (∀ i ∈ infs, i.id ≠ k) →
      lookupConf (processInferences m infs).2 k = lookupConf m k := by
  induction infs with
  | nil => intro m _; rfl
  | cons i rest ih =>
    intro m hne
    simp only [processInferences]
    exact (ih _ fun j hj => hne j (by simp [hj])).trans
      (lookupConf_inferenceMapUpdate_ne (hne i (by simp)))

theorem lookupConf_premiseMap_none {a : Artifact} {k : String}
    (h : ∀ p ∈ a.premises, p.id ≠ k) : lookupConf (premiseMap a) k = none :=
  (lookupConf_processPremises_of_ne _ _ h).trans rfl

/-- An unresolved support contributes nothing to the resolved-confidence
list: filtering it out of the supports leaves the list unchanged. -/
theorem resolvedConfs_erase_unresolved {m : ConfMap} {ref : String}
    (h : lookupConf m ref = none) (l : List String) :
    resolvedConfs m l = resolvedConfs m (l.filter (fun r => !(r == ref))) := by
  induction l with
  | nil => rfl
  | cons s ss ih =>
    show (s :: ss).filterMap (lookupConf m) = _
    by_cases hs : s = ref
    · subst hs
      rw [List.filterMap_cons_none h, List.filter_cons_of_neg (by simp)]
      exact ih
    · rw [List.filter_cons_of_pos (by simp [hs])]
      cases hls : lookupConf m s with
      | none =>
        rw [List.filterMap_cons_none hls]
        show _ = (s :: _).filterMap (lookupConf m)
        rw [List.filterMap_cons_none hls]
        exact ih
      | some q =>
        rw [List.filterMap_cons_some hls]
        show _ = (s :: _).filterMap (lookupConf m)
        rw [List.filterMap_cons_some hls]
        exact congrArg (List.cons q) ih

/-- A premise whose id occurs only with confidence `c` ends up stored with
`c` in the seeded map. -/
theorem lookupConf_processPremises_unique {k : String} {c : ℚ}
    (ps : List Premise) :
    ∀ m, (∀ q ∈ ps, q.id = k → q.confidence = some c) →
      (∃ q ∈ ps, q.id = k) →
      lookupConf (processPremises m ps).2 k = some c := by
  induction ps with
  | nil => rintro m _ ⟨q, hq, _⟩; cases hq
  | cons p rest ih =>
    intro m hall hex
    simp only [processPremises]
    by_cases hrest : ∃ q ∈ rest, q.id = k
    · exact ih _ (fun q hq => hall q (by simp [hq])) hrest
    · have hp : p.id = k := by
        obtain ⟨q, hq, hqk⟩ := hex
        rcases List.mem_cons.mp hq with rfl | hq'
        · exact hqk
        · exact absurd ⟨q, hq', hqk⟩ hrest
      have hpc : p.confidence = some c := hall p (by simp) hp
      have hnone : ∀ q ∈ rest, q.id ≠ k := fun q hq hqk => hrest ⟨q, hq, hqk⟩
      rw [hpc, lookupConf_processPremises_of_ne rest _ hnone]
      show lookupConf ((p.id, c) :: m) k = some c
      rw [hp]
      exact lookupConf_cons_self m k c

/-! ## Claim C1 -/

/-- C1 (counterexample): the claim asserts that, whenever all of an
inference's supports resolve in the confidence map, a confidence-bound
error is reported iff the confidence exceeds `min(resolved) * 1.1`.  In
`artC1outOfRange` the single support `premise-1` (confidence 0.70) resolves
and the inference's confidence 1.5 exceeds the 0.77 ceiling, yet the
validator reports only the range error and no confidence-bound error: the
out-of-range branch `continue`s before the bound check. -/
theorem claim_C1_counterexample :
    (∀ r ∈ infC1outOfRange.supports,
      (lookupConf (mapAfter artC1outOfRange []) r).isSome)
    ∧ ((3/2 : ℚ) > (7/10) * (11/10))
    ∧ (validateConfidencePropagation artC1outOfRange).2 =
        [ConfError.infRange "inference-1" (3/2)]
    ∧ ∀ e ∈ (validateConfidencePropagation artC1outOfRange).2, ¬e.isInfBound := by
  refine ⟨by decide, by norm_num, by decide, by decide⟩

/-- C1 (amended): for every inference whose confidence is present and in
`[0, 1]` and whose support references all resolve in the confidence map at
its processing point, a confidence-bound error for it is contributed iff
its confidence exceeds `min(resolved support confidences) * 1.1`, and any
such contributed error appears in the validator's output (in particular,
with a single supporting premise of confidence 0.70, confidence 0.80 is
rejected and 0.75 is accepted — see the witness). -/
theorem claim_C1_theorem (a : Artifact) (pre post : List Inference)
    (inf : Inference) (c : ℚ)
    (hsplit : a.inferences = pre ++ inf :: post)
    (hc : inf.confidence = some c) (h0 : 0 ≤ c) (h1 : c ≤ 1)
    (hres : ∀ r ∈ inf.supports, (lookupConf (mapAfter a pre) r).isSome) :
    ((∃ b ms, ConfError.infBound inf.id c b ms ∈
        inferenceErrors (mapAfter a pre) inf) ↔
      ∃ ms, minResolved (mapAfter a pre) inf.supports = some ms ∧
        c > ms * (11/10))
    ∧ ∀ b ms, ConfError.infBound inf.id c b ms ∈
        inferenceErrors (mapAfter a pre) inf →
        ConfError.infBound inf.id c b ms ∈ (validateConfidencePropagation a).2 :=
  ⟨infBound_mem_iff hc h0 h1 hres,
   fun _ _ hmem => mem_confErrors_of_inference hsplit hmem⟩

/-- C1 (witness): a premise of confidence 0.70 supporting an inference of
confidence 0.80 yields a confidence-bound error (0.80 > 0.77), while one of
confidence 0.75 is accepted. -/
theorem claim_C1_witness :
    (∃ b ms, ConfError.infBound "inference-1" (4/5) b ms ∈
      (validateConfidencePropagation artC1reject).2)
    ∧ (validateConfidencePropagation artC1reject).1 = false
    ∧ ¬(∃ b ms, ConfError.infBound "inference-1" (3/4) b ms ∈
        inferenceErrors (mapAfter artC1accept []) infC1accept)
    ∧ validateConfidencePropagation artC1accept = (true, []) := by
  refine ⟨?_, by decide, ?_, by decide⟩
  · obtain ⟨b, ms, hmem⟩ :=
      (claim_C1_theorem artC1reject [] [] infC1reject (4/5) rfl rfl
        (by norm_num) (by norm_num) (by decide)).1.mpr
        ⟨7/10, by decide, by norm_num⟩
    exact ⟨b, ms,
      (claim_C1_theorem artC1reject [] [] infC1reject (4/5) rfl rfl
        (by norm_num) (by norm_num) (by decide)).2 b ms hmem⟩
  · rintro ⟨b, ms, hmem⟩
    obtain ⟨ms', hms', hgt⟩ :=
      (claim_C1_theorem artC1accept [] [] infC1accept (3/4) rfl rfl
        (by norm_num) (by norm_num) (by decide)).1.mp ⟨b, ms, hmem⟩
    have heval : minResolved (mapAfter artC1accept []) infC1accept.supports =
        some (7/10) := by decide
    rw [heval] at hms'
    injection hms' with h'
    rw [← h'] at hgt
    exact absurd hgt (by norm_num)

/-! ## Claim C4 -/

/-- C4: for every conclusion with confidence present and in `[0, 1]`, a
contestation error is contributed iff `contested_by` is nonempty and the
confidence exceeds 0.8, and when it fires it appears in the validator's
output. -/
theorem claim_C4_theorem (a : Artifact) (conc : Conclusion) (c : ℚ)
    (hmem : conc ∈ a.conclusions) (hc : conc.confidence = some c)
    (h0 : 0 ≤ c) (h1 : c ≤ 1) :
    ((ConfError.concContested conc.id conc.contested_by.length c ∈
        conclusionErrors conc) ↔ (conc.contested_by ≠ [] ∧ c > 4/5))
    ∧ (conc.contested_by ≠ [] → c > 4/5 →
        ConfError.concContested conc.id conc.contested_by.length c ∈
          (validateConfidencePropagation a).2) :=
  ⟨concContested_mem_iff hc h0 h1,
   fun hne hgt => mem_confErrors_of_conclusion hmem
     ((concContested_mem_iff hc h0 h1).mpr ⟨hne, hgt⟩)⟩

/-- C4 (witness): a contested conclusion of confidence 0.85 is rejected,
one of confidence 0.79 is accepted. -/
theorem claim_C4_witness :
    ConfError.concContested "conclusion-1" 1 (17/20) ∈
      (validateConfidencePropagation artC4reject).2
    ∧ (validateConfidencePropagation artC4reject).1 = false
    ∧ ConfError.concContested "conclusion-1" 1 (79/100) ∉
        conclusionErrors concC4accept
    ∧ validateConfidencePropagation artC4accept = (true, []) := by
  refine ⟨?_, by decide, ?_, by decide⟩
  · exact (claim_C4_theorem artC4reject concC4reject (17/20) (by decide) rfl
      (by norm_num) (by norm_num)).2 (by decide) (by norm_num)
  · intro hmem
    exact absurd ((claim_C4_theorem artC4accept concC4accept (79/100)
      (by decide) rfl (by norm_num) (by norm_num)).1.mp hmem).2 (by norm_num)

/-! ## Claim C9 -/

/-- C9: the confidence validator resolves supports only against entities
already processed.  If inference `X` lists a support id carried only by an
inference declared after it, the lookup at `X`'s processing point fails,
the unknown-support error is reported even though the id exists in the
artifact, and the resolved-confidence list used for `X`'s bound is the one
with that forward reference filtered out. -/
theorem claim_C9_theorem (a : Artifact) (pre post : List Inference)
    (X : Inference) (ref : String) (c : ℚ)
    (hsplit : a.inferences = pre ++ X :: post)
    (hc : X.confidence = some c) (h0 : 0 ≤ c) (h1 : c ≤ 1)
    (hos : ref ∈ X.supports)
    (hlater : ref ∈ post.map (·.id))
    (hprem : ∀ p ∈ a.premises, p.id ≠ ref)
    (hpre : ∀ i ∈ pre, i.id ≠ ref) :
    lookupConf (mapAfter a pre) ref = none
    ∧ ConfError.infUnknownSupport X.id ref ∈ (validateConfidencePropagation a).2
    ∧ ref ∈ a.inferences.map (·.id)
    ∧ resolvedConfs (mapAfter a pre) X.supports =
        resolvedConfs (mapAfter a pre) (X.supports.filter (fun r => !(r == ref))) := by
  have hnone : lookupConf (mapAfter a pre) ref = none := by
    unfold mapAfter
    rw [lookupConf_processInferences_of_ne pre _ hpre]
    exact lookupConf_premiseMap_none hprem
  refine ⟨hnone, ?_, ?_, resolvedConfs_erase_unresolved hnone _⟩
  · apply mem_confErrors_of_inference hsplit
    simp only [inferenceErrors, hc]
    rw [if_neg (not_not_intro ⟨h0, h1⟩), if_neg (List.ne_nil_of_mem hos)]
    refine List.mem_append.mpr (Or.inl ?_)
    exact List.mem_filterMap.mpr ⟨ref, hos, by rw [hnone]; rfl⟩
  · rw [hsplit]
    simp only [List.map_append, List.map_cons]
    exact List.mem_append.mpr (Or.inr (List.mem_cons_of_mem _ hlater))

/-- C9 (witness): in `artC9forward`, `inference-1` forward-references
`inference-2`; the reference is reported unknown although `inference-2`
exists, and the bound for `inference-1` is computed from `premise-1`
alone. -/
theorem claim_C9_witness :
    lookupConf (mapAfter artC9forward []) "inference-2" = none
    ∧ ConfError.infUnknownSupport "inference-1" "inference-2" ∈
        (validateConfidencePropagation artC9forward).2
    ∧ "inference-2" ∈ artC9forward.inferences.map (·.id)
    ∧ resolvedConfs (mapAfter artC9forward []) infC9first.supports =
        resolvedConfs (mapAfter artC9forward [])
          (infC9first.supports.filter (fun r => !(r == "inference-2"))) :=
  claim_C9_theorem artC9forward [] [infC9second] infC9first "inference-2" (7/10)
    rfl rfl (by norm_num) (by norm_num) (by decide) (by decide) (by decide)
    (by decide)

/-! ## Claim C10 -/

/-- C10: a premise whose confidence lies outside `[0, 1]` draws the range
error yet its value is still stored in the confidence map, so a downstream
inference supported by that premise alone is checked against
`out_of_range_value * 1.1` rather than being skipped or clamped. -/
theorem claim_C10_theorem (a : Artifact) (p : Premise) (c : ℚ)
    (hmem : p ∈ a.premises) (hc : p.confidence = some c)
    (hout : ¬(0 ≤ c ∧ c ≤ 1))
    (huniq : ∀ q ∈ a.premises, q.id = p.id → q = p) :
    ConfError.premiseRange p.id c ∈ (validateConfidencePropagation a).2
    ∧ lookupConf (premiseMap a) p.id = some c
    ∧ ∀ (inf : Inference) (ci : ℚ), inf.confidence = some ci → 0 ≤ ci → ci ≤ 1 →
        inf.supports = [p.id] →
        ((∃ b ms, ConfError.infBound inf.id ci b ms ∈
            inferenceErrors (premiseMap a) inf) ↔ ci > c * (11/10)) := by
  have hstore : lookupConf (premiseMap a) p.id = some c :=
    lookupConf_processPremises_unique a.premises []
      (fun q hq hqid => by rw [huniq q hq hqid]; exact hc) ⟨p, hmem, rfl⟩
  refine ⟨?_, hstore, ?_⟩
  · apply mem_confErrors_of_premise hmem
    simp only [premiseErrors, hc]
    rw [if_neg hout]
    exact List.mem_singleton.mpr rfl
  · intro inf ci hci h0 h1 hsup
    have hres : ∀ r ∈ inf.supports, (lookupConf (premiseMap a) r).isSome := by
      intro r hr
      rw [hsup, List.mem_singleton] at hr
      rw [hr, hstore]
      rfl
    have hmin : minResolved (premiseMap a) inf.supports = some c := by
      rw [hsup]
      show minResolved (premiseMap a) [p.id] = some c
      simp only [minResolved, resolvedConfs, List.filterMap_cons, hstore,
        List.filterMap_nil]
      rfl
    rw [infBound_mem_iff hci h0 h1 hres]
    constructor
    · rintro ⟨ms, hms, hgt⟩
      rw [hmin] at hms
      injection hms with h'
      rw [← h'] at hgt
      exact hgt
    · intro hgt
      exact ⟨c, hmin, hgt⟩

/-- C10 (witness): `premise-1` with confidence -0.5 draws the range error,
is stored in the map, and the downstream inference of confidence 0.5 is
checked against -0.55 (and hence rejected). -/
theorem claim_C10_witness :
    ConfError.premiseRange "premise-1" (-(1/2)) ∈
      (validateConfidencePropagation artC10outOfRange).2
    ∧ lookupConf (premiseMap artC10outOfRange) "premise-1" = some (-(1/2))
    ∧ (∃ b ms, ConfError.infBound "inference-1" (1/2) b ms ∈
        inferenceErrors (premiseMap artC10outOfRange) infC10)
    ∧ (validateConfidencePropagation artC10outOfRange).2 =
        [ConfError.premiseRange "premise-1" (-(1/2)),
         ConfError.infBound "inference-1" (1/2) ((-(1/2)) * (11/10)) (-(1/2))] := by
  have h := claim_C10_theorem artC10outOfRange premC10 (-(1/2)) (by decide) rfl
    (by norm_num) (by decide)
  exact ⟨h.1, h.2.1,
    (h.2.2 infC10 (1/2) rfl (by norm_num) (by norm_num) rfl).mpr (by norm_num),
    by decide⟩

/-! ## Claim C2 -/

/-- C2 (counterexample): the claim asserts that every inference id
participating in a cycle is reported.  For the two-inference cycle
`inference-1 → inference-2 → inference-1` the structural validator reports
only `inference-1` (the node the DFS was started from): after that DFS both
nodes are in `visited`, so the outer loop never starts a DFS from
`inference-2`, and the single error appended names the start node only. -/
theorem claim_C2_counterexample :
    (artC2cycle.inferences.map (fun i => (i.id, i.supports))) =
        [("inference-1", ["inference-2"]), ("inference-2", ["inference-1"])]
    ∧ StructError.circular "inference-1" ∈ (validateAll artC2cycle).errors
    ∧ StructError.circular "inference-2" ∉ (validateAll artC2cycle).errors := by
  refine ⟨by decide, by decide, by decide⟩

/-- C2 (amended): for the two-inference cycle `A → B → A` (with `A` declared
first) the structural validator reports the cycle as a single hard error
naming only `A`, the DFS entry node — not every participant — and the
artifact is reported invalid. -/
theorem claim_C2_theorem :
    (validateAll artC2cycle).errors = [StructError.circular "inference-1"]
    ∧ (validateAll artC2cycle).valid = false
    ∧ structExitCode artC2cycle = 1 := by
  refine ⟨by decide, by decide, by decide⟩

/-! ## Claim C6 -/

/-- C6 (counterexample): the claim asserts that a `supports` entry naming a
Conclusion id is reported as a hard reference error.  In
`artC6conclusionSupport`, `inference-1` supports only `conclusion-1`, which
is no premise or inference id, yet the validator reports no error at all:
`check_dangling_references` resolves supports against the union of premise,
inference AND conclusion ids. -/
theorem claim_C6_counterexample :
    "conclusion-1" ∈ artC6conclusionSupport.inferences.flatMap (·.supports)
    ∧ "conclusion-1" ∉ artC6conclusionSupport.premises.map (·.id)
    ∧ "conclusion-1" ∉ artC6conclusionSupport.inferences.map (·.id)
    ∧ "conclusion-1" ∈ artC6conclusionSupport.conclusions.map (·.id)
    ∧ (validateAll artC6conclusionSupport).errors = [] := by
  refine ⟨by decide, by decide, by decide, by decide, by decide⟩

/-- C6 (amended): each entry of an inference's supports list that resolves
to no premise, inference, or conclusion id — a nonexistent id, or one
belonging to a Contradiction — is reported as a hard reference error; an
entry naming an existing Conclusion id is accepted (see the
counterexample). -/
theorem claim_C6_theorem (a : Artifact) (i : Inference) (ref : String)
    (hi : i ∈ a.inferences) (href : ref ∈ i.supports)
    (hnot : ref ∉ validIds a) :
    StructError.infUnknownRef i.id ref ∈ (validateAll a).errors := by
  show _ ∈ checkCircularDependencies a ++ checkDanglingReferences a ++
    checkContradictionTargetErrors a
  refine List.mem_append.mpr (Or.inl (List.mem_append.mpr (Or.inr ?_)))
  refine List.mem_append.mpr (Or.inl ?_)
  refine List.mem_flatMap.mpr ⟨i, hi, ?_⟩
  exact List.mem_filterMap.mpr ⟨ref, href, by rw [if_neg hnot]⟩

/-- C6 (witness): a support entry naming an existing contradiction id is
reported as a dangling reference. -/
theorem claim_C6_witness :
    StructError.infUnknownRef "inference-1" "contradiction-1" ∈
      (validateAll artC6contradictionSupport).errors
    ∧ "contradiction-1" ∈ artC6contradictionSupport.contradictions.map (·.id) := by
  refine ⟨?_, by decide⟩
  exact claim_C6_theorem artC6contradictionSupport
    { id := "inference-1", supports := ["contradiction-1"] } "contradiction-1"
    (by decide) (by decide) (by decide)

/-! ## Claim C8 -/

/-- C8: the structural validator's pass/fail flag and exit code are
functions of the error list alone — two artifacts with the same errors get
the same verdict whatever their warnings — and with no errors the artifact
is reported valid with exit code 0. -/
theorem claim_C8_theorem (a b : Artifact)
    (h : (validateAll a).errors = (validateAll b).errors) :
    ((validateAll a).valid = (validateAll b).valid
      ∧ structExitCode a = structExitCode b)
    ∧ ((validateAll a).errors = [] →
        (validateAll a).valid = true ∧ structExitCode a = 0) := by
  have hv : ∀ x : Artifact, (validateAll x).valid = (validateAll x).errors.isEmpty :=
    fun _ => rfl
  have hvb : (validateAll a).valid = (validateAll b).valid := by
    rw [hv, hv, h]
  refine ⟨⟨hvb, ?_⟩, fun hnil => ?_⟩
  · unfold structExitCode
    rw [hvb]
  · have : (validateAll a).valid = true := by rw [hv, hnil]; rfl
    exact ⟨this, by unfold structExitCode; rw [this]; rfl⟩

/-- C8 (witness): `artC8warnings` produces an orphan warning and an
untargeted-contradiction warning but no errors; it is reported valid with
exit code 0, matching the warning-free empty artifact. -/
theorem claim_C8_witness :
    (validateAll artC8warnings).warnings ≠ []
    ∧ (validateAll ({} : Artifact)).warnings = []
    ∧ (validateAll artC8warnings).errors = []
    ∧ (validateAll artC8warnings).valid = true
    ∧ structExitCode artC8warnings = 0
    ∧ (validateAll artC8warnings).valid = (validateAll ({} : Artifact)).valid := by
  have h := claim_C8_theorem artC8warnings ({} : Artifact) (by decide)
  exact ⟨by decide, by decide, by decide, (h.2 (by decide)).1, (h.2 (by decide)).2,
    h.1.1⟩

/-! ## Claim C3 -/

/-- C3: the returned coverage equals the specification formula
`|checked ∩ checkable| / |checkable|` over the claim-id sets whenever the
checkable ids are distinct (the data model requires unique ids), and it is
exactly 1 whenever the checkable list is empty. -/
theorem claim_C3_theorem (a : Artifact) :
    ((checkableIds a).Nodup →
      (calculateContradictionCoverage a).1 = coverageSpec a)
    ∧ (checkableIds a = [] → (calculateContradictionCoverage a).1 = 1) := by
  have hspec : checkableSpecSet a = (checkableIds a).toFinset := by
    simp [checkableSpecSet, checkableIds]
  constructor
  · intro hnodup
    by_cases hnil : checkableIds a = []
    · unfold calculateContradictionCoverage coverageSpec
      rw [hspec, hnil]
      simp
    · unfold calculateContradictionCoverage coverageSpec
      rw [hspec]
      rw [if_neg (by simpa using hnil), if_neg (by simpa [List.toFinset_eq_empty_iff] using hnil)]
      simp only
      rw [List.toFinset_card_of_nodup hnodup]
  · intro hnil
    unfold calculateContradictionCoverage
    rw [hnil]
    simp

/-- C3 (witness): three checkable claims, two of them checked (one targeted
by a contradiction, one with `performed = true`): coverage 2/3, equal to
the specification formula. -/
theorem claim_C3_witness :
    (calculateContradictionCoverage artC3cov).1 = coverageSpec artC3cov
    ∧ (calculateContradictionCoverage artC3cov).1 = 2/3
    ∧ (calculateContradictionCoverage ({} : Artifact)).1 = 1 :=
  ⟨(claim_C3_theorem artC3cov).1 (by decide), by decide,
   (claim_C3_theorem ({} : Artifact)).2 (by decide)⟩

/-! ## Lemmas about the schema validator -/

theorem mem_insertLe {le : α → α → Bool} {x a : α} :
    ∀ {l : List α}, a ∈ insertLe le x l ↔ a = x ∨ a ∈ l := by
  intro l
  induction l with
  | nil => simp [insertLe]
  | cons y ys ih =>
    by_cases h : le y x = true
    · simp only [insertLe, if_pos h, List.mem_cons, ih]
      tauto
    · simp only [insertLe, if_neg h, List.mem_cons]

theorem mem_sortLe {le : α → α → Bool} {a : α} :
    ∀ {l : List α}, a ∈ sortLe le l ↔ a ∈ l := by
  intro l
  induction l with
  | nil => exact Iff.rfl
  | cons x xs ih =>
    show a ∈ insertLe le x (sortLe le xs) ↔ _
    rw [mem_insertLe, ih, List.mem_cons]

/-- Any collected schema error survives the path sort, and its presence
makes the document invalid. -/
theorem mem_validateLsaSchema {doc : Json} {e : SchemaError}
    (he : e ∈ iterErrors doc) :
    e ∈ (validateLsaSchema doc).2 ∧ (validateLsaSchema doc).1 = false := by
  have hm : e ∈ sortLe (fun e₁ e₂ => !pathLt e₂.path e₁.path) (iterErrors doc) :=
    mem_sortLe.mpr he
  refine ⟨hm, ?_⟩
  show (sortLe (fun e₁ e₂ => !pathLt e₂.path e₁.path) (iterErrors doc)).isEmpty = false
  cases hs : sortLe (fun e₁ e₂ => !pathLt e₂.path e₁.path) (iterErrors doc) with
  | nil => rw [hs] at hm; cases hm
  | cons _ _ => rfl

/-- Errors of a present declared property belong to the object's
`properties` errors. -/
theorem mem_propsErrs {p : List PathElem}
    {props : List (String × (List PathElem → Json → List SchemaError))}
    {fs : List (String × Json)} {key : String}
    {chk : List PathElem → Json → List SchemaError} {v : Json} {e : SchemaError}
    (hpr : (key, chk) ∈ props) (hlk : lookupField fs key = some v)
    (he : e ∈ chk (p ++ [.key key]) v) : e ∈ propsErrs p props fs :=
  List.mem_flatMap.mpr ⟨(key, chk), hpr, by rw [hlk]; exact he⟩

/-- Errors of the `j`-th element belong to the `items` errors. -/
theorem mem_checkItemsFrom {chk : List PathElem → Json → List SchemaError}
    {p : List PathElem} {e : SchemaError} :
    ∀ (xs : List Json) (start j : Nat) (x : Json), xs[j]? = some x →
      e ∈ chk (p ++ [.idx (start + j)]) x → e ∈ checkItemsFrom chk p start xs := by
  intro xs
  induction xs with
  | nil => intro start j x h _; rw [List.getElem?_nil] at h; cases h
  | cons y ys ih =>
    intro start j x h he
    cases j with
    | zero =>
      rw [List.getElem?_cons_zero] at h
      injection h with h'
      subst h'
      exact List.mem_append.mpr (Or.inl (by simpa using he))
    | succ j' =>
      rw [List.getElem?_cons_succ] at h
      refine List.mem_append.mpr (Or.inr (ih (start + 1) j' x h ?_))
      have harith : start + 1 + j' = start + (j' + 1) := by omega
      rw [harith]
      exact he

theorem props_keys_ne
    {props : List (String × (List PathElem → Json → List SchemaError))}
    {k : String} (hk : k ∉ props.map Prod.fst) : ∀ pr ∈ props, pr.1 ≠ k :=
  fun pr hpr hEq => hk (hEq ▸ List.mem_map_of_mem Prod.fst hpr)

/-- An object with `additionalProperties: false` and an undeclared present
key draws the additional-properties error, which lists that key. -/
theorem checkObjectSchema_unknownField (p : List PathElem) (req : List String)
    (props : List (String × (List PathElem → Json → List SchemaError)))
    (fs : List (String × Json)) (k : String) (v : Json)
    (hkv : (k, v) ∈ fs) (hnot : ∀ pr ∈ props, pr.1 ≠ k) :
    ∃ ks, (⟨p, .additionalProps ks⟩ : SchemaError) ∈
        checkObjectSchema p req props true (.obj fs) ∧ k ∈ ks := by
  have hany : props.any (fun pr => pr.1 == k) = false := by
    rw [List.any_eq_false]
    intro pr hpr h
    exact hnot pr hpr (by simpa using h)
  have hk : k ∈ extraKeys props fs := by
    unfold extraKeys
    refine List.mem_map.mpr ⟨(k, v), List.mem_filter.mpr ⟨hkv, ?_⟩, rfl⟩
    simp [hany]
  cases hek : extraKeys props fs with
  | nil => rw [hek] at hk; cases hk
  | cons a l =>
    rw [hek] at hk
    refine ⟨sortLe strLe ((a :: l).dedup), ?_, ?_⟩
    · have hmem : (⟨p, SchemaRule.additionalProps (sortLe strLe ((a :: l).dedup))⟩ :
          SchemaError) ∈ additionalErrs p props fs := by
        unfold additionalErrs
        rw [hek]
        exact List.mem_singleton.mpr rfl
      have hif : (⟨p, SchemaRule.additionalProps (sortLe strLe ((a :: l).dedup))⟩ :
          SchemaError) ∈ (if (true : Bool) then additionalErrs p props fs else []) := by
        rw [if_pos rfl]
        exact hmem
      exact List.mem_append.mpr (Or.inr hif)
    · exact mem_sortLe.mpr (List.mem_dedup.mpr hk)

/-- An unknown field inside the `i`-th object of one of the entity
collections makes the document invalid with an additional-properties error
at that object's path. -/
theorem unknownField_entity {fs : List (String × Json)} {ps : List Json}
    {i : Nat} {pf : List (String × Json)} {k : String} {v : Json}
    {name : String} {req : List String}
    {props : List (String × (List PathElem → Json → List SchemaError))}
    {itemChk : List PathElem → Json → List SchemaError}
    (hdef : ∀ p v', itemChk p v' = checkObjectSchema p req props true v')
    (hprop : (name, checkArrayOf itemChk) ∈ topProps)
    (hlk : lookupField fs name = some (.arr ps))
    (hidx : ps[i]? = some (.obj pf))
    (hkv : (k, v) ∈ pf)
    (hnot : ∀ pr ∈ props, pr.1 ≠ k) :
    (validateLsaSchema (.obj fs)).1 = false ∧
      ∃ ks, (⟨[.key name, .idx i], .additionalProps ks⟩ : SchemaError) ∈
          (validateLsaSchema (.obj fs)).2 ∧ k ∈ ks := by
  obtain ⟨ks, hmem, hkks⟩ :=
    checkObjectSchema_unknownField [.key name, .idx i] req props pf k v hkv hnot
  have hitem : (⟨[.key name, .idx i], SchemaRule.additionalProps ks⟩ :
      SchemaError) ∈ itemChk [.key name, .idx i] (.obj pf) := by
    rw [hdef]; exact hmem
  have harr : (⟨[.key name, .idx i], SchemaRule.additionalProps ks⟩ :
      SchemaError) ∈ checkArrayOf itemChk ([] ++ [.key name]) (.arr ps) := by
    show _ ∈ checkItemsFrom itemChk ([] ++ [.key name]) 0 ps
    refine mem_checkItemsFrom ps 0 i _ hidx ?_
    simpa using hitem
  have hiter : (⟨[.key name, .idx i], SchemaRule.additionalProps ks⟩ :
      SchemaError) ∈ iterErrors (.obj fs) :=
    List.mem_append.mpr (Or.inl (List.mem_append.mpr (Or.inr
      (mem_propsErrs hprop hlk harr))))
  obtain ⟨h2, h1⟩ := mem_validateLsaSchema hiter
  exact ⟨h1, ks, h2, hkks⟩

/-! ## Claim C5 -/

/-- C5 (counterexample): the claim asserts an unknown field at any nesting
level is rejected.  `docC5ccExtra` carries the unknown field `surprise`
inside its premise's `contradiction_check`, yet the schema validator
accepts it with zero errors: none of the `contradiction_check` subschemas
sets `additionalProperties: false`. -/
theorem claim_C5_counterexample :
    "surprise" ∉ ccPremiseProps.map Prod.fst
    ∧ validateLsaSchema docC5ccExtra = (true, []) := by
  refine ⟨by decide, by decide⟩

/-- C5 (amended): an artifact field name not defined by the data model is
rejected with an additional-properties error naming its object — at the top
level, inside a premise, inference, contradiction or conclusion object, and
inside the audit block — but unknown fields inside a `contradiction_check`
object are accepted (see the counterexample). -/
theorem claim_C5_theorem :
    (∀ (fs : List (String × Json)) (k : String) (v : Json),
      (k, v) ∈ fs → k ∉ topProps.map Prod.fst →
      (validateLsaSchema (.obj fs)).1 = false ∧
        ∃ ks, (⟨[], .additionalProps ks⟩ : SchemaError) ∈
            (validateLsaSchema (.obj fs)).2 ∧ k ∈ ks)
    ∧ (∀ (fs : List (String × Json)) (ps : List Json) (i : Nat)
        (pf : List (String × Json)) (k : String) (v : Json),
        lookupField fs "premises" = some (.arr ps) →
        ps[i]? = some (.obj pf) → (k, v) ∈ pf →
        k ∉ premiseProps.map Prod.fst →
        (validateLsaSchema (.obj fs)).1 = false ∧
          ∃ ks, (⟨[.key "premises", .idx i], .additionalProps ks⟩ :
              SchemaError) ∈ (validateLsaSchema (.obj fs)).2 ∧ k ∈ ks)
    ∧ (∀ (fs : List (String × Json)) (ps : List Json) (i : Nat)
        (pf : List (String × Json)) (k : String) (v : Json),
        lookupField fs "inferences" = some (.arr ps) →
        ps[i]? = some (.obj pf) → (k, v) ∈ pf →
        k ∉ inferenceProps.map Prod.fst →
        (validateLsaSchema (.obj fs)).1 = false ∧
          ∃ ks, (⟨[.key "inferences", .idx i], .additionalProps ks⟩ :
              SchemaError) ∈ (validateLsaSchema (.obj fs)).2 ∧ k ∈ ks)
    ∧ (∀ (fs : List (String × Json)) (ps : List Json) (i : Nat)
        (pf : List (String × Json)) (k : String) (v : Json),
        lookupField fs "contradictions" = some (.arr ps) →
        ps[i]? = some (.obj pf) → (k, v) ∈ pf →
        k ∉ contradictionProps.map Prod.fst →
        (validateLsaSchema (.obj fs)).1 = false ∧
          ∃ ks, (⟨[.key "contradictions", .idx i], .additionalProps ks⟩ :
              SchemaError) ∈ (validateLsaSchema (.obj fs)).2 ∧ k ∈ ks)
    ∧ (∀ (fs : List (String × Json)) (ps : List Json) (i : Nat)
        (pf : List (String × Json)) (k : String) (v : Json),
        lookupField fs "conclusions" = some (.arr ps) →
        ps[i]? = some (.obj pf) → (k, v) ∈ pf →
        k ∉ conclusionProps.map Prod.fst →
        (validateLsaSchema (.obj fs)).1 = false ∧
          ∃ ks, (⟨[.key "conclusions", .idx i], .additionalProps ks⟩ :
              SchemaError) ∈ (validateLsaSchema (.obj fs)).2 ∧ k ∈ ks)
    ∧ (∀ (fs af : List (String × Json)) (k : String) (v : Json),
        lookupField fs "audit" = some (.obj af) → (k, v) ∈ af →
        k ∉ auditProps.map Prod.fst →
        (validateLsaSchema (.obj fs)).1 = false ∧
          ∃ ks, (⟨[.key "audit"], .additionalProps ks⟩ : SchemaError) ∈
              (validateLsaSchema (.obj fs)).2 ∧ k ∈ ks) := by
  refine ⟨?_, ?_, ?_, ?_, ?_, ?_⟩
  · intro fs k v hkv hk
    obtain ⟨ks, hmem, hkks⟩ := checkObjectSchema_unknownField [] topReq topProps
      fs k v hkv (props_keys_ne hk)
    have hiter : (⟨[], SchemaRule.additionalProps ks⟩ : SchemaError) ∈
        iterErrors (.obj fs) := hmem
    obtain ⟨h2, h1⟩ := mem_validateLsaSchema hiter
    exact ⟨h1, ks, h2, hkks⟩
  · intro fs ps i pf k v hlk hidx hkv hk
    exact unknownField_entity (fun _ _ => rfl)
      (by unfold topProps; exact List.mem_cons_self _ _)
      hlk hidx hkv (props_keys_ne hk)
  · intro fs ps i pf k v hlk hidx hkv hk
    exact unknownField_entity (fun _ _ => rfl)
      (by unfold topProps
          exact List.mem_cons_of_mem _ (List.mem_cons_self _ _))
      hlk hidx hkv (props_keys_ne hk)
  · intro fs ps i pf k v hlk hidx hkv hk
    exact unknownField_entity (fun _ _ => rfl)
      (by unfold topProps
          exact List.mem_cons_of_mem _ (List.mem_cons_of_mem _
            (List.mem_cons_self _ _)))
      hlk hidx hkv (props_keys_ne hk)
  · intro fs ps i pf k v hlk hidx hkv hk
    exact unknownField_entity (fun _ _ => rfl)
      (by unfold topProps
          exact List.mem_cons_of_mem _ (List.mem_cons_of_mem _
            (List.mem_cons_of_mem _ (List.mem_cons_self _ _))))
      hlk hidx hkv (props_keys_ne hk)
  · intro fs af k v hlk hkv hk
    obtain ⟨ks, hmem, hkks⟩ := checkObjectSchema_unknownField [.key "audit"]
      auditReq auditProps af k v hkv (props_keys_ne hk)
    have hprop : ("audit", checkAudit) ∈ topProps := by
      unfold topProps
      exact List.mem_cons_of_mem _ (List.mem_cons_of_mem _
        (List.mem_cons_of_mem _ (List.mem_cons_of_mem _
          (List.mem_cons_self _ _))))
    have hiter : (⟨[.key "audit"], SchemaRule.additionalProps ks⟩ :
        SchemaError) ∈ iterErrors (.obj fs) :=
      List.mem_append.mpr (Or.inl (List.mem_append.mpr (Or.inr
        (mem_propsErrs hprop hlk hmem))))
    obtain ⟨h2, h1⟩ := mem_validateLsaSchema hiter
    exact ⟨h1, ks, h2, hkks⟩

/-- C5 (witness): an unknown top-level key and an unknown premise field are
each rejected with an error naming their object. -/
theorem claim_C5_witness :
    ((validateLsaSchema docC5topExtra).1 = false
      ∧ ∃ ks, (⟨[], .additionalProps ks⟩ : SchemaError) ∈
          (validateLsaSchema docC5topExtra).2 ∧ "bogus" ∈ ks)
    ∧ ((validateLsaSchema docC5premiseExtra).1 = false
      ∧ ∃ ks, (⟨[.key "premises", .idx 0], .additionalProps ks⟩ : SchemaError) ∈
          (validateLsaSchema docC5premiseExtra).2 ∧ "extra" ∈ ks) := by
  constructor
  · exact claim_C5_theorem.1 fieldsC5topExtra "bogus" .null
      (by simp [fieldsC5topExtra]) (by decide)
  · exact claim_C5_theorem.2.1 fieldsC5premiseExtra [.obj fieldsC5premise] 0
      fieldsC5premise "extra" (.bool true) rfl rfl
      (by simp [fieldsC5premise]) (by decide)

/-! ## Claim C7 -/

/-- C7 (code bug): the LSA data model — both the specification and the
repository's own conclusion validator — allows a conclusion's `supports`
list to be empty, but `LSA_SCHEMA` gives `conclusions.items.supports`
`minItems: 1`, so an otherwise conformant artifact whose conclusion has
`supports = []` is rejected with exactly that one error. -/
theorem claim_C7_theorem :
    validateLsaSchema docC7emptySupports =
      (false, [⟨[.key "conclusions", .idx 0, .key "supports"],
                .tooFewItems 1⟩]) := by decide

end LSA
